import Mathlib

/-!
Verification of the colab-phage-assembly execution engine:
a shallow embedding of `src/boilerplate/widget.py` (run controller,
poll protocol) and `src/pipeline/pipeline.py` (process executor
`_run_cmd`, stage runner `run`), with theorems settling the frozen
claims about the natural-language specification.
-/

namespace ColabPhage

/-! ## Log slicing (widget.py `_handle_custom_msg`, `_append_log`)

The log is a growing character sequence; Python slicing `s[a:b]` is
modelled on `List Char` as take-then-drop. -/

/-- Python slice `s[a:b]` on a character list. -/
def pySlice (s : List Char) (a b : Nat) : List Char := (s.take b).drop a

/-- Poll response body: `_log_history[start_offset:]` when
`start_offset < total_len`, else the empty string
(widget.py lines 204-213). -/
def pollBody (s : List Char) (off : Nat) : List Char :=
  if off < s.length then s.drop off else []

/-! ## Process executor (`PhagePipeline._run_cmd`, pipeline.py 67-151)

The read loop consumes one "read event" per `stdout.read(1)` call:
an empty read (with the result of `poll()`), a byte that completes no
character in the incremental UTF-8 decoder, or a byte that completes
character `c` (with `late` recording whether more than 200ms have
elapsed since the last flush at that moment).  The stop flag
`_stop_requested` is monotone within one command: `stopIdx = some k`
means the flag is set from observation point `k` on (point 0 is the
check at function entry, point `i ≥ 1` is the i-th loop iteration,
point `events.length + 1` is the check after `wait()`). -/

inductive ReadEvent where
  | emptyRead (procDone : Bool)
  | midByte
  | charByte (c : Char) (late : Bool)
deriving Repr, DecidableEq

/-- `"\n" in decoded_char or "\r" in decoded_char` for a single
decoded character (pipeline.py line 127). -/
def isNL (c : Char) : Bool := c = '\n' || c = '\r'

/-- Whether the stop flag reads true at observation point `i`. -/
def stopAt (stopIdx : Option Nat) (i : Nat) : Bool :=
  match stopIdx with
  | some k => decide (k ≤ i)
  | none => false

structure LoopOut where
  reads : Nat
  writes : List (List Char)
  terminated : Bool
  buf : List Char
deriving Repr, DecidableEq

/-- The `while True` read loop of `_run_cmd` (pipeline.py 112-134):
read a byte, decode, append to `output_buffer`; when the decoded
character is a newline or carriage return or the 200ms deadline has
passed, check the stop flag (terminate and break if set, else hand
the buffer to `logger.write` and clear it). -/
def runLoop (stopIdx : Option Nat) : List ReadEvent → Nat → List Char → LoopOut
  | [], _, buf => ⟨0, [], false, buf⟩
  | ReadEvent.emptyRead d :: rest, i, buf =>
    if d then ⟨1, [], false, buf⟩
    else
      let r := runLoop stopIdx rest (i + 1) buf
      ⟨r.reads + 1, r.writes, r.terminated, r.buf⟩
  | ReadEvent.midByte :: rest, i, buf =>
    let r := runLoop stopIdx rest (i + 1) buf
    ⟨r.reads + 1, r.writes, r.terminated, r.buf⟩
  | ReadEvent.charByte c late :: rest, i, buf =>
    if isNL c || late then
      if stopAt stopIdx i then ⟨1, [], true, buf ++ [c]⟩
      else
        let r := runLoop stopIdx rest (i + 1) []
        ⟨r.reads + 1, (buf ++ [c]) :: r.writes, r.terminated, r.buf⟩
    else
      let r := runLoop stopIdx rest (i + 1) (buf ++ [c])
      ⟨r.reads + 1, r.writes, r.terminated, r.buf⟩

/-- Final flush after the loop (pipeline.py 136-138): write the
pending buffer if it is nonempty. -/
def closeWrites (ws : List (List Char)) (buf : List Char) : List (List Char) :=
  if buf.isEmpty then ws else ws ++ [buf]

def termNotice : List Char := "❯ Terminated.\n".toList

structure CmdResult where
  spawned : Bool
  reads : Nat
  writes : List (List Char)
  terminated : Bool
  exitCode : Int
deriving Repr, DecidableEq

/-- `_run_cmd` (pipeline.py 67-151): stop check at entry (return -1
without spawning), the read loop, the final flush, then after
`wait()` a final stop check that writes a terminal notice and
discards the child's real exit code in favour of the sentinel -1. -/
def runCmd (events : List ReadEvent) (stopIdx : Option Nat) (childExit : Int) : CmdResult :=
  if stopAt stopIdx 0 then ⟨false, 0, [], false, -1⟩
  else
    let l := runLoop stopIdx events 1 []
    let ws := closeWrites l.writes l.buf
    if stopAt stopIdx (events.length + 1) then
      ⟨true, l.reads, ws ++ [termNotice], l.terminated, -1⟩
    else
      ⟨true, l.reads, ws, l.terminated, childExit⟩

/-- The first observation point at which the loop's flush-time stop
check fires: the first event decoding a character whose flush
condition holds while the stop flag is set. -/
def firstTermIdx (stopIdx : Option Nat) : List ReadEvent → Nat → Option Nat
  | [], _ => none
  | ReadEvent.emptyRead d :: rest, i =>
    if d then none else firstTermIdx stopIdx rest (i + 1)
  | ReadEvent.midByte :: rest, i => firstTermIdx stopIdx rest (i + 1)
  | ReadEvent.charByte c late :: rest, i =>
    if isNL c || late then
      if stopAt stopIdx i then some i
      else firstTermIdx stopIdx rest (i + 1)
    else firstTermIdx stopIdx rest (i + 1)

/-- The flush policy exactly as the specification words it: accumulate
decoded characters into a pending buffer, flush when the pending
buffer contains a newline or carriage return or more than 200ms have
elapsed since the last flush, and flush any remaining buffered
characters after the read loop ends. -/
def specFlush : List ReadEvent → List Char → List (List Char)
  | [], pending => if pending.isEmpty then [] else [pending]
  | ReadEvent.emptyRead d :: rest, pending =>
    if d then (if pending.isEmpty then [] else [pending])
    else specFlush rest pending
  | ReadEvent.midByte :: rest, pending => specFlush rest pending
  | ReadEvent.charByte c late :: rest, pending =>
    if (pending ++ [c]).any isNL || late then (pending ++ [c]) :: specFlush rest []
    else specFlush rest (pending ++ [c])

/-! ## Stage runner (`PhagePipeline.run`, pipeline.py 242-418)

Parameters mirror `params.get(...)` in `run`: the boolean stage
toggles collapse Python truthiness of the stored value; the read
inputs are optional strings (absent key ⇒ `none`, and an empty string
is falsy like `None`).  The environment abstracts the filesystem
(`Path(...).exists()`), the real exit code of each spawned child (in
spawn order), the point at which `terminate()` sets `_stop_requested`
(`stopDuring = some k`: the flag becomes set during the k-th
`_run_cmd` invocation; `some 0`: before the first one), the Pharokka
database check, and whether zipping raises. -/

structure RunParams where
  output_name : String
  short_r1 : Option String
  short_r2 : Option String
  run_fastqc : Bool
  run_trimming : Bool
  run_quast : Bool
  run_pharokka : Bool
deriving Repr, DecidableEq

structure RunEnv where
  fs : String → Bool
  fastaExists : Bool
  exits : List Int
  stopDuring : Option Nat
  dbOk : Bool
  zipOk : Bool

/-- Python truthiness of an optional string (`if not r1` catches both
a missing key and an empty string). -/
def truthy : Option String → Bool
  | none => false
  | some s => !s.isEmpty

/-- `_stop_requested` after `cmds` completed `_run_cmd` invocations. -/
def stopSet (stopDuring : Option Nat) (cmds : Nat) : Bool :=
  match stopDuring with
  | some k => decide (k ≤ cmds)
  | none => false

structure ExecSt where
  cmds : Nat
  spawned : Nat
  codes : List Int
deriving Repr, DecidableEq

def stopNow (env : RunEnv) (s : ExecSt) : Bool := stopSet env.stopDuring s.cmds

/-- One `_run_cmd` invocation as seen by `run`: if the flag is already
set at entry, return -1 without spawning; if the flag becomes set
during this command, the child is spawned but -1 is reported; else
the child's real exit code is reported. -/
def execCmd (env : RunEnv) (s : ExecSt) : Int × ExecSt :=
  if stopSet env.stopDuring s.cmds then
    (-1, ⟨s.cmds + 1, s.spawned, s.codes ++ [-1]⟩)
  else
    let code : Int :=
      if env.stopDuring = some (s.cmds + 1) then -1 else env.exits.getD s.spawned 0
    (code, ⟨s.cmds + 1, s.spawned + 1, s.codes ++ [code]⟩)

structure RunOut where
  ok : Bool
  codes : List Int
  spawned : Nat
  packaged : Bool
  valErrors : Nat
  stopFinal : Bool
deriving Repr, DecidableEq

/-- A validation failure (pipeline.py 262-272): `run` returns `False`
before any `_run_cmd` call, after exactly one `logger.error` entry. -/
def valFail (env : RunEnv) : RunOut :=
  ⟨false, [], 0, false, 1, stopSet env.stopDuring 0⟩

/-- Any later `return False` path (stop checks, assembly failure,
zipping error): no packaging flag, no validation error. -/
def failedOut (env : RunEnv) (s : ExecSt) : RunOut :=
  ⟨false, s.codes, s.spawned, false, 0, stopSet env.stopDuring s.cmds⟩

/-- `PhagePipeline.run` (pipeline.py 242-418): input validation, then
FastQC (exit code ignored), TrimGalore (exit code only selects file
paths), a stop check, Unicycler assembly (nonzero exit or missing
`assembly.fasta` fails the run), QUAST (exit code ignored), Pharokka
(failure only downgrades `annotation_success`, which merely changes
the final message), then zip packaging; `run` returns `True` after
packaging even when annotation failed.  Stop checks guard each stage
entry, but no exit code except assembly's is inspected for the
sentinel. -/
def pipelineRun (p : RunParams) (env : RunEnv) : RunOut :=
  if !truthy p.short_r1 then valFail env
  else if !env.fs (p.short_r1.getD "") then valFail env
  else if truthy p.short_r2 && !env.fs (p.short_r2.getD "") then valFail env
  else
    let s0 : ExecSt := ⟨0, 0, []⟩
    if p.run_fastqc && stopNow env s0 then failedOut env s0
    else
      let s1 := if p.run_fastqc then (execCmd env s0).2 else s0
      if p.run_trimming && (truthy p.short_r1 || truthy p.short_r2) && stopNow env s1 then
        failedOut env s1
      else
        let s2 := if p.run_trimming && (truthy p.short_r1 || truthy p.short_r2) then
          (execCmd env s1).2 else s1
        if stopNow env s2 then failedOut env s2
        else
          let asm := execCmd env s2
          if asm.1 ≠ 0 then failedOut env asm.2
          else if !env.fastaExists then failedOut env asm.2
          else
            if p.run_quast && stopNow env asm.2 then failedOut env asm.2
            else
              let s4 := if p.run_quast then (execCmd env asm.2).2 else asm.2
              if p.run_pharokka && stopNow env s4 then failedOut env s4
              else
                let s5 := if p.run_pharokka && env.dbOk then (execCmd env s4).2 else s4
                if !env.zipOk then failedOut env s5
                else ⟨true, s5.codes, s5.spawned, true, 0, stopSet env.stopDuring s5.cmds⟩

/-- Final status written by `run_thread` (widget.py 133-151): the
success branch is tested first, then the stop flag, then error; an
exception anywhere forces error. -/
inductive Status where
  | idle | running | finished | error | aborted
deriving Repr, DecidableEq

def runThreadStatus (raised success stopFlag : Bool) : Status :=
  if raised then Status.error
  else if success then Status.finished
  else if stopFlag then Status.aborted
  else Status.error

/-! ## Run controller / sync protocol (`PipelineWidget`, widget.py) -/

structure WidgetState where
  status : Status
  statusMessage : String
  logHistory : List Char
  logsTrait : List Char
  runRequested : Bool
  terminateRequested : Bool
  actionRequested : String
  resultFileName : List Char
  resultFileData : List Char
  activeTasks : Nat
deriving Repr, DecidableEq

/-- Messages pushed to the host via `self.send`. The run path's
`run_finished` dict has no result keys (`result := none`); the action
path's carries the current `result_file_name`/`result_file_data`. -/
inductive Event where
  | runFinished (status : Status) (logs : List Char) (result : Option (List Char × List Char))
  | resultReady (name payload : List Char)
  | logBatch (content : List Char) (newOffset : Nat) (status : Status)
deriving Repr, DecidableEq

def eventResult : Event → Option (List Char × List Char)
  | Event.runFinished _ _ r => r
  | _ => none

def isRunFinishedEvt : Event → Bool
  | Event.runFinished _ _ _ => true
  | _ => false

def isResultReadyEvt : Event → Bool
  | Event.resultReady _ _ => true
  | _ => false

/-- `_on_run_requested` (widget.py 100-115, 192): on a rising edge it
clears the signal, sets status running, clears the log history, the
logs traitlet and both result fields, and spawns the run thread
(modelled by the task counter) — with no check for an already-active
task. -/
def onRunRequested (st : WidgetState) (newVal : Bool) : WidgetState :=
  if !newVal then st
  else
    { st with runRequested := false, status := Status.running,
              statusMessage := "Pipeline running...",
              logHistory := [], logsTrait := [],
              resultFileData := [], resultFileName := [],
              activeTasks := st.activeTasks + 1 }

/-- `_on_action_requested` (widget.py 217-229, 255): on a rising edge
it clears the signal, sets status running, clears the logs and spawns
the action thread — no exclusivity check and no touch of the result
fields. -/
def onActionRequested (st : WidgetState) (newVal : String) : WidgetState :=
  if newVal = "" then st
  else
    { st with actionRequested := "", status := Status.running,
              logHistory := [], logsTrait := [],
              activeTasks := st.activeTasks + 1 }

/-- `_on_terminate_requested` (widget.py 91-98): clears the signal,
appends a notice to the `logs` traitlet (not the history), sets
status aborted. -/
def onTerminateRequested (st : WidgetState) (newVal : Bool) : WidgetState :=
  if !newVal then st
  else
    { st with terminateRequested := false,
              logsTrait := st.logsTrait ++ "\n❯ Terminating pipeline...\n".toList,
              status := Status.aborted,
              statusMessage := "Terminated by user" }

/-- `_handle_custom_msg` poll branch (widget.py 194-214): purely reads
the state and answers with the slice from the requested offset. -/
def onPoll (st : WidgetState) (off : Nat) : WidgetState × Event :=
  (st, Event.logBatch (pollBody st.logHistory off) st.logHistory.length st.status)

/-- Abstract outcome of one `run_thread` execution: everything the
pipeline (and the logger status line) appended to the log, whether an
exception escaped `pipeline.run`, its result and the stop flag, and
the state of the zip artifact examined afterwards. -/
structure RunThreadIn where
  runLogs : List Char
  raised : Bool
  exnText : List Char
  success : Bool
  stopFlag : Bool
  zipExists : Bool
  zipBytes : Nat
  zipName : List Char
  payload : List Char
deriving Repr, DecidableEq

/-- `size_mb > 50` on the exact byte count: 50 · 1024 · 1024. -/
def resultSizeLimit : Nat := 50 * 1024 * 1024

def successLine : List Char := "✓ Completed successfully!\n".toList
def abortLine : List Char := "⚠ Pipeline was terminated.\n".toList
def failLine : List Char := "✘ Pipeline failed.\n".toList
def tooLargeLine : List Char := "⚠ File is too large for widget download. Please use file explorer.\n".toList
def preparingLine : List Char := "ℹ Preparing download...\n".toList
def readyLine : List Char := "✓ Download ready.\n".toList
def dataPrefix : List Char := "data:application/zip;base64,".toList

/-- The log line the status branch of `run_thread` appends
(widget.py 133-151; exception text abstracted as an input). -/
def branchLine (inp : RunThreadIn) : List Char :=
  if inp.raised then inp.exnText
  else if inp.success then successLine
  else if inp.stopFlag then abortLine
  else failLine

def branchMessage (inp : RunThreadIn) : String :=
  if inp.raised then "Error"
  else if inp.success then "Completed successfully"
  else if inp.stopFlag then "Terminated by user"
  else "Failed"

/-- `run_thread` (widget.py 117-189): run the pipeline (its appends
are `runLogs`), write the final status, then in `finally` capture the
full history and push ONE `run_finished` event carrying it (and no
result payload).  Only afterwards, and only on `finished`, examine
the zip: strictly over 50MB logs a "use the file explorer" warning;
otherwise the result traitlets are set and a separate `result_ready`
event is pushed. -/
def runThread (st : WidgetState) (inp : RunThreadIn) : WidgetState × List Event :=
  let finalLogs := st.logHistory ++ inp.runLogs ++ branchLine inp
  let status := runThreadStatus inp.raised inp.success inp.stopFlag
  let st1 : WidgetState :=
    { st with logHistory := finalLogs, logsTrait := finalLogs,
              status := status, statusMessage := branchMessage inp }
  let evt := Event.runFinished status finalLogs none
  if status = Status.finished ∧ inp.zipExists = true then
    if inp.zipBytes > resultSizeLimit then
      ({ st1 with logHistory := finalLogs ++ tooLargeLine }, [evt])
    else
      ({ st1 with resultFileName := inp.zipName,
                  resultFileData := dataPrefix ++ inp.payload,
                  logHistory := finalLogs ++ preparingLine ++ readyLine },
       [evt, Event.resultReady inp.zipName (dataPrefix ++ inp.payload)])
  else (st1, [evt])

/-- Abstract outcome of one action thread execution. -/
structure ActionIn where
  actionLogs : List Char
  ok : Bool
  raised : Bool
  errText : List Char
deriving Repr, DecidableEq

/-- `_target` in `_on_action_requested` (widget.py 230-253): run the
action, set status idle/error, and push a `run_finished` event that
carries the full log and whatever `result_file_name` /
`result_file_data` are currently stored — the action never writes
those fields. -/
def actionThread (st : WidgetState) (inp : ActionIn) : WidgetState × Event :=
  let finalLogs := st.logHistory ++ inp.actionLogs ++ (if inp.raised then inp.errText else [])
  let status := if inp.raised then Status.error
                else if inp.ok then Status.idle else Status.error
  let st1 : WidgetState :=
    { st with logHistory := finalLogs, logsTrait := finalLogs, status := status }
  (st1, Event.runFinished status finalLogs (some (st.resultFileName, st.resultFileData)))

/-- A widget state with one background task already active. -/
def busyState : WidgetState :=
  { status := Status.running, statusMessage := "", logHistory := [], logsTrait := [],
    runRequested := false, terminateRequested := false, actionRequested := "",
    resultFileName := "old_results.zip".toList, resultFileData := "stale".toList,
    activeTasks := 1 }

/-- A widget state with nothing running and no stored result. -/
def idleState : WidgetState :=
  { status := Status.idle, statusMessage := "", logHistory := [], logsTrait := [],
    runRequested := false, terminateRequested := false, actionRequested := "",
    resultFileName := [], resultFileData := [], activeTasks := 0 }

/-- A successful run whose zip artifact is 1024 bytes, well under the
50MB threshold. -/
def smallZipRun : RunThreadIn :=
  ⟨"run log\n".toList, false, [], true, false, true, 1024,
   "phage_project_results.zip".toList, "QUJD".toList⟩

/-- A successful run whose zip artifact is exactly 50MB. -/
def exactLimitRun : RunThreadIn :=
  ⟨"run log\n".toList, false, [], true, false, true, 50 * 1024 * 1024,
   "phage_project_results.zip".toList, "QUJD".toList⟩

/-! ## Helper lemmas -/

theorem stopAt_mono {s : Option Nat} {i i' : Nat} (h : i ≤ i') (hs : stopAt s i = true) :
    stopAt s i' = true := by
  cases s with
  | none => simp [stopAt] at hs
  | some k =>
    simp only [stopAt, decide_eq_true_eq] at hs ⊢
    omega

theorem closeWrites_cons (x : List Char) (ws : List (List Char)) (b : List Char) :
    closeWrites (x :: ws) b = x :: closeWrites ws b := by
  unfold closeWrites
  split <;> simp

theorem closeWrites_runLoop_none (events : List ReadEvent) :
    ∀ (i : Nat) (buf : List Char), buf.any isNL = false →
      closeWrites (runLoop none events i buf).writes (runLoop none events i buf).buf =
        specFlush events buf := by
  induction events with
  | nil =>
    intro i buf _
    simp [runLoop, specFlush, closeWrites]
  | cons e rest ih =>
    intro i buf h
    cases e with
    | emptyRead d =>
      cases d with
      | false => simpa [runLoop, specFlush] using ih (i + 1) buf h
      | true => simp [runLoop, specFlush, closeWrites]
    | midByte => simpa [runLoop, specFlush] using ih (i + 1) buf h
    | charByte c late =>
      have hb : (buf ++ [c]).any isNL = isNL c := by
        simp [List.any_append, h]
      cases hfl : (isNL c || late) with
      | true =>
        have : stopAt none i = false := rfl
        simp only [runLoop, hfl, this, Bool.false_eq_true, if_false, if_true, specFlush,
          hb, closeWrites_cons]
        rw [ih (i + 1) [] rfl]
      | false =>
        have hc : isNL c = false := by
          cases hnl : isNL c <;> simp_all
        have hl : late = false := by
          cases hlate : late <;> simp_all
        have h2 : (buf ++ [c]).any isNL = false := by rw [hb, hc]
        simp only [runLoop, hfl, Bool.false_eq_true, if_false, specFlush, hb, hc, hl,
          Bool.or_self]
        exact ih (i + 1) (buf ++ [c]) h2

theorem runLoop_term (stopIdx : Option Nat) (events : List ReadEvent) :
    ∀ (i : Nat) (buf : List Char) (j : Nat), firstTermIdx stopIdx events i = some j →
      (runLoop stopIdx events i buf).terminated = true ∧
      (runLoop stopIdx events i buf).reads + i = j + 1 ∧
      i ≤ j ∧ j ≤ i + events.length ∧ stopAt stopIdx j = true := by
  induction events with
  | nil =>
    intro i buf j h
    simp [firstTermIdx] at h
  | cons e rest ih =>
    intro i buf j h
    cases e with
    | emptyRead d =>
      cases d with
      | true => simp [firstTermIdx] at h
      | false =>
        simp only [firstTermIdx, Bool.false_eq_true, if_false] at h
        obtain ⟨h1, h2, h3, h4, h5⟩ := ih (i + 1) buf j h
        refine ⟨by simp [runLoop, h1], ?_, by omega, by simp only [List.length_cons]; omega, h5⟩
        have hr : (runLoop stopIdx (ReadEvent.emptyRead false :: rest) i buf).reads
            = (runLoop stopIdx rest (i + 1) buf).reads + 1 := by simp [runLoop]
        omega
    | midByte =>
      simp only [firstTermIdx] at h
      obtain ⟨h1, h2, h3, h4, h5⟩ := ih (i + 1) buf j h
      refine ⟨by simp [runLoop, h1], ?_, by omega, by simp only [List.length_cons]; omega, h5⟩
      have hr : (runLoop stopIdx (ReadEvent.midByte :: rest) i buf).reads
          = (runLoop stopIdx rest (i + 1) buf).reads + 1 := by simp [runLoop]
      omega
    | charByte c late =>
      cases hfl : (isNL c || late) with
      | false =>
        simp only [firstTermIdx, hfl, Bool.false_eq_true, if_false] at h
        obtain ⟨h1, h2, h3, h4, h5⟩ := ih (i + 1) (buf ++ [c]) j h
        refine ⟨by simp [runLoop, hfl, h1], ?_, by omega, by simp only [List.length_cons]; omega, h5⟩
        have hr : (runLoop stopIdx (ReadEvent.charByte c late :: rest) i buf).reads
            = (runLoop stopIdx rest (i + 1) (buf ++ [c])).reads + 1 := by
          simp [runLoop, hfl]
        omega
      | true =>
        cases hst : stopAt stopIdx i with
        | true =>
          simp only [firstTermIdx, hfl, hst, if_true] at h
          have hij : i = j := Option.some.inj h
          subst hij
          refine ⟨?_, ?_, Nat.le_refl i, by simp only [List.length_cons]; omega, hst⟩
          · simp [runLoop, hfl, hst]
          · have hr : (runLoop stopIdx (ReadEvent.charByte c late :: rest) i buf).reads = 1 := by
              simp [runLoop, hfl, hst]
            omega
        | false =>
          simp only [firstTermIdx, hfl, hst, Bool.false_eq_true, if_false, if_true] at h
          obtain ⟨h1, h2, h3, h4, h5⟩ := ih (i + 1) [] j h
          refine ⟨by simp [runLoop, hfl, hst, h1], ?_, by omega, by simp only [List.length_cons]; omega, h5⟩
          have hr : (runLoop stopIdx (ReadEvent.charByte c late :: rest) i buf).reads
              = (runLoop stopIdx rest (i + 1) []).reads + 1 := by
            simp [runLoop, hfl, hst]
          omega

/-! ## Claim theorems -/

/-- C5: within one run epoch, log slicing is prefix-consistent: for
all offsets `a ≤ b ≤ c` within the log's final length, the slice from
`a` to `b` concatenated with the slice from `b` to `c` equals the
slice from `a` to `c`, so successive polls at increasing offsets
reassemble the log without gaps or duplication. -/
theorem C5_slice_prefix_consistent (s : List Char) (a b c : Nat)
    (hab : a ≤ b) (hbc : b ≤ c) (hcs : c ≤ s.length) :
    pySlice s a b ++ pySlice s b c = pySlice s a c := by
  unfold pySlice
  have h1 : (s.take c).take b = s.take b := by
    rw [List.take_take, Nat.min_eq_left hbc]
  have h2 : a ≤ ((s.take c).take b).length := by
    rw [h1, List.length_take]
    exact le_min hab (hab.trans (hbc.trans hcs))
  calc (s.take b).drop a ++ (s.take c).drop b
      = ((s.take c).take b).drop a ++ (s.take c).drop b := by rw [h1]
    _ = (((s.take c).take b) ++ (s.take c).drop b).drop a :=
        (List.drop_append_of_le_length h2).symm
    _ = (s.take c).drop a := by rw [List.take_append_drop]

/-- C5 witness: the identity at a = 1, b = 3, c = 7 on a concrete
nine-character log. -/
theorem C5_witness :
    pySlice "unicycler".toList 1 3 ++ pySlice "unicycler".toList 3 7 =
      pySlice "unicycler".toList 1 7 :=
  C5_slice_prefix_consistent "unicycler".toList 1 3 7 (by decide) (by decide) (by decide)

/-- C7: the executor accumulates decoded characters into a pending
buffer and hands the buffer to the sink's write (then clears it)
exactly when the pending buffer contains a newline, contains a
carriage return, or more than 200ms have elapsed since the last
flush; any remaining buffered characters are flushed after the read
loop ends.  The source checks the freshly decoded character instead
of the whole buffer; the two coincide because a flushed buffer never
retains a newline or carriage return. -/
theorem C7_flush_policy (events : List ReadEvent) (childExit : Int) :
    (runCmd events none childExit).writes = specFlush events [] := by
  have h := closeWrites_runLoop_none events 1 [] rfl
  unfold runCmd
  simp only [stopAt, Bool.false_eq_true, if_false]
  exact h

/-- C9: for every command invocation, if the stop flag is set by the
time the child process has been waited on, `_run_cmd` returns the
sentinel -1 and discards the child's real exit code, even when the
child exited with code 0 before the stop was requested. -/
theorem C9_stop_discards_exit (events : List ReadEvent) (stopIdx : Option Nat)
    (childExit : Int) (h : stopAt stopIdx (events.length + 1) = true) :
    (runCmd events stopIdx childExit).exitCode = -1 := by
  unfold runCmd
  by_cases h0 : stopAt stopIdx 0 = true
  · simp [h0]
  · simp [h0, h]

/-- C9 witness: a child that ran to completion (empty read with the
process already exited) and exited 0, with the stop flag raised after
the read loop but before `wait()` returns, is still reported as -1. -/
theorem C9_witness :
    stopAt (some 2) ([ReadEvent.emptyRead true].length + 1) = true ∧
    (runCmd [ReadEvent.emptyRead true] (some 2) 0).exitCode = -1 :=
  ⟨by decide, C9_stop_discards_exit [ReadEvent.emptyRead true] (some 2) 0 (by decide)⟩

/-- C3 counterexample: the stop flag is NOT checked before each read.
With the flag set before the first read (observation point 1) and two
plain bytes arriving with no flush trigger, the loop still performs
both reads and never issues a terminate request from inside the loop
(the claim requires zero further reads and a terminate once the flag
is set). -/
theorem C3_counterexample_reads_after_stop :
    stopAt (some 1) 1 = true ∧
    (runCmd [ReadEvent.charByte 'a' false, ReadEvent.charByte 'b' false]
      (some 1) 0).reads = 2 ∧
    (runCmd [ReadEvent.charByte 'a' false, ReadEvent.charByte 'b' false]
      (some 1) 0).terminated = false := by
  decide

/-- C3 amended: the stop flag is checked at function entry and at each
flush trigger, immediately before the flush (not before each read nor
after each flush); at the first flush trigger where the flag is
observed set, the child receives a terminate request, the loop exits
with no further reads, and the reported exit code is the reserved
sentinel -1. -/
theorem C3_amended_stop_checked_at_flush (events : List ReadEvent)
    (stopIdx : Option Nat) (childExit : Int) (j : Nat)
    (h0 : stopAt stopIdx 0 = false)
    (hj : firstTermIdx stopIdx events 1 = some j) :
    (runCmd events stopIdx childExit).terminated = true ∧
    (runCmd events stopIdx childExit).reads = j ∧
    (runCmd events stopIdx childExit).exitCode = -1 := by
  obtain ⟨h1, h2, h3, h4, h5⟩ := runLoop_term stopIdx events 1 [] j hj
  have hstop : stopAt stopIdx (events.length + 1) = true :=
    stopAt_mono (by omega) h5
  unfold runCmd
  simp only [h0, Bool.false_eq_true, if_false, hstop, if_true]
  refine ⟨h1, by omega, trivial⟩

/-- C3 amended witness: one newline byte with the flag set from the
first observation point: the flush trigger fires, the stop check
terminates the child after exactly one read, and -1 is reported. -/
theorem C3_amended_witness :
    (runCmd [ReadEvent.charByte '\n' false] (some 1) 7).terminated = true ∧
    (runCmd [ReadEvent.charByte '\n' false] (some 1) 7).reads = 1 ∧
    (runCmd [ReadEvent.charByte '\n' false] (some 1) 7).exitCode = -1 :=
  C3_amended_stop_checked_at_flush [ReadEvent.charByte '\n' false] (some 1) 7 1
    (by decide) (by decide)

/-- C1: when a Run's background task completes (in every outcome:
finished, error, or aborted), the controller pushes exactly one
terminal `run_finished` event whose `logs` field equals the entire
log accumulated during that run (the epoch starts empty, so the
pushed logs are exactly the run's appends plus the status line),
independently of which prefixes were previously returned to poll
requests (polling never mutates the state). -/
theorem C1_terminal_push_full_log (st : WidgetState) (inp : RunThreadIn) (off : Nat) :
    ((runThread (onRunRequested st true) inp).2.countP isRunFinishedEvt = 1) ∧
    ((runThread (onRunRequested st true) inp).2.head? =
      some (Event.runFinished (runThreadStatus inp.raised inp.success inp.stopFlag)
        (inp.runLogs ++ branchLine inp) none)) ∧
    ((onPoll (onRunRequested st true) off).1 = onRunRequested st true) := by
  have hlog : (onRunRequested st true).logHistory = [] := rfl
  refine ⟨?_, ?_, rfl⟩
  all_goals
    unfold runThread
    by_cases h1 : runThreadStatus inp.raised inp.success inp.stopFlag = Status.finished ∧
        inp.zipExists = true
    · by_cases h2 : inp.zipBytes > resultSizeLimit
      · simp [h1, h2, List.countP_cons, isRunFinishedEvt, hlog]
      · simp [h1, h2, List.countP_cons, isRunFinishedEvt, hlog]
    · simp [h1, List.countP_cons, isRunFinishedEvt, hlog]

/-- C2 counterexample: the controller enforces no mutual exclusion.
From a state with one background task already active, an Action
signal (and likewise a Run signal) starts a second concurrent
background task. -/
theorem C2_counterexample_concurrent_spawn :
    busyState.activeTasks = 1 ∧
    (onActionRequested busyState "install_pharokka_db").activeTasks = 2 ∧
    (onRunRequested busyState true).activeTasks = 2 := by
  decide

/-- C2 amended: the Run and Action handlers spawn a background task
unconditionally on a rising edge — from any state, including one with
an active task — so mutual exclusion between Runs and Actions is not
enforced by the controller (it is left to the host UI). -/
theorem C2_amended_unconditional_spawn (st : WidgetState) :
    (onRunRequested st true).activeTasks = st.activeTasks + 1 ∧
    (onActionRequested st "install_pharokka_db").activeTasks = st.activeTasks + 1 := by
  constructor
  · rfl
  · unfold onActionRequested
    rw [if_neg (by decide)]

/-- C4 (code-bug evidence): with FastQC, TrimGalore and Pharokka
disabled, QUAST enabled, a healthy assembly (exit 0, fasta present),
and the stop flag raised during the QUAST command, the executor
returns the sentinel -1 for QUAST (codes = [0, -1]) — yet the run
continues, packages the results (`packaged = true`), returns success,
and `run_thread` reports the final status `finished`, not aborted. -/
theorem C4_sentinel_not_aborting :
    pipelineRun ⟨"phage_project", some "reads_R1.fastq", none, false, false, true, false⟩
        ⟨fun _ => true, true, [0], some 2, true, true⟩ =
      ⟨true, [0, -1], 2, true, 0, true⟩ ∧
    runThreadStatus false true true = Status.finished :=
  ⟨rfl, rfl⟩

/-- C6: for every parameter map in which the required input `short_r1`
is absent or names a path that does not exist on the filesystem,
`run(params)` returns failure immediately: no external process is
spawned and the log contains exactly one validation error entry. -/
theorem C6_validation_short_circuit (p : RunParams) (env : RunEnv)
    (h : p.short_r1 = none ∨ ∃ s, p.short_r1 = some s ∧ env.fs s = false) :
    (pipelineRun p env).ok = false ∧ (pipelineRun p env).spawned = 0 ∧
    (pipelineRun p env).codes = [] ∧ (pipelineRun p env).valErrors = 1 := by
  have hval : pipelineRun p env = valFail env := by
    rcases h with h | ⟨s, hs, hf⟩
    · unfold pipelineRun
      rw [h]
      simp [truthy]
    · unfold pipelineRun
      rw [hs]
      cases he : s.isEmpty with
      | true => simp [truthy, he]
      | false => simp [truthy, he, hf]
  rw [hval]
  exact ⟨rfl, rfl, rfl, rfl⟩

/-- C6 witness: the empty parameter map (no `short_r1`) against a
filesystem with no files fails validation with no spawn and one
error. -/
theorem C6_witness :
    (pipelineRun ⟨"phage_project", none, none, true, true, true, true⟩
      ⟨fun _ => false, false, [], none, false, false⟩).ok = false ∧
    (pipelineRun ⟨"phage_project", none, none, true, true, true, true⟩
      ⟨fun _ => false, false, [], none, false, false⟩).spawned = 0 ∧
    (pipelineRun ⟨"phage_project", none, none, true, true, true, true⟩
      ⟨fun _ => false, false, [], none, false, false⟩).codes = [] ∧
    (pipelineRun ⟨"phage_project", none, none, true, true, true, true⟩
      ⟨fun _ => false, false, [], none, false, false⟩).valErrors = 1 :=
  C6_validation_short_circuit _ _ (Or.inl rfl)

/-- C8 counterexample: on a successful run with an existing zip well
under the 50MB threshold, the terminal `run_finished` push event
carries NO result payload (`result = none`); the payload travels in a
separate `result_ready` event.  Moreover at exactly 50MB — "at the
threshold" — the payload IS sent (the code tests strictly
`size_mb > 50`), where the claim requires no payload. -/
theorem C8_counterexample_payload_location :
    runThreadStatus smallZipRun.raised smallZipRun.success smallZipRun.stopFlag =
      Status.finished ∧
    smallZipRun.zipExists = true ∧
    smallZipRun.zipBytes < resultSizeLimit ∧
    (runThread idleState smallZipRun).2.head? =
      some (Event.runFinished Status.finished
        ("run log\n".toList ++ successLine) none) ∧
    (runThread idleState exactLimitRun).2.any isResultReadyEvt = true ∧
    exactLimitRun.zipBytes = resultSizeLimit := by
  decide

/-- C8 amended: the result payload (name plus data) is delivered via
the result traitlets and a separate `result_ready` push event, after
a terminal `run_finished` event that itself never carries a payload;
the payload is sent exactly when the final status is finished, the
packaged zip exists, and its size is at most the 50MB threshold;
strictly above the threshold no payload is sent and a message telling
the user to retrieve the artifact via the file explorer is logged. -/
theorem C8_amended_result_delivery (st : WidgetState) (inp : RunThreadIn) :
    ((runThread st inp).2 =
      (if runThreadStatus inp.raised inp.success inp.stopFlag = Status.finished ∧
          inp.zipExists = true ∧ inp.zipBytes ≤ resultSizeLimit
       then [Event.runFinished (runThreadStatus inp.raised inp.success inp.stopFlag)
               (st.logHistory ++ inp.runLogs ++ branchLine inp) none,
             Event.resultReady inp.zipName (dataPrefix ++ inp.payload)]
       else [Event.runFinished (runThreadStatus inp.raised inp.success inp.stopFlag)
               (st.logHistory ++ inp.runLogs ++ branchLine inp) none])) ∧
    ((runThread st inp).1.resultFileName =
      (if runThreadStatus inp.raised inp.success inp.stopFlag = Status.finished ∧
          inp.zipExists = true ∧ inp.zipBytes ≤ resultSizeLimit
       then inp.zipName else st.resultFileName)) ∧
    ((runThread st inp).1.resultFileData =
      (if runThreadStatus inp.raised inp.success inp.stopFlag = Status.finished ∧
          inp.zipExists = true ∧ inp.zipBytes ≤ resultSizeLimit
       then dataPrefix ++ inp.payload else st.resultFileData)) ∧
    ((runThread st inp).1.logHistory =
      (st.logHistory ++ inp.runLogs ++ branchLine inp) ++
        (if runThreadStatus inp.raised inp.success inp.stopFlag = Status.finished ∧
            inp.zipExists = true
         then (if inp.zipBytes > resultSizeLimit then tooLargeLine
               else preparingLine ++ readyLine)
         else [])) := by
  by_cases h1 : runThreadStatus inp.raised inp.success inp.stopFlag = Status.finished ∧
      inp.zipExists = true
  · by_cases h2 : inp.zipBytes > resultSizeLimit
    · have hle : ¬inp.zipBytes ≤ resultSizeLimit := by omega
      simp [runThread, h1, h2, hle]
    · have hle : inp.zipBytes ≤ resultSizeLimit := by omega
      simp [runThread, h1, h2, hle, List.append_assoc]
  · have hA : ¬(runThreadStatus inp.raised inp.success inp.stopFlag = Status.finished ∧
        inp.zipExists = true ∧ inp.zipBytes ≤ resultSizeLimit) := by
      rintro ⟨ha, hb, -⟩
      exact h1 ⟨ha, hb⟩
    simp [runThread, h1, hA]

/-- C10: an Action never clears the result artifact fields: the
`run_finished` event pushed at the end of every Action carries
whatever `result_file_name` and `result_file_data` values the state
holds (possibly a stale artifact of a previous Run), and the action
thread leaves both fields unchanged; only a new Run signal resets the
two fields to empty, while the action handler, the terminate handler
and the poll responder leave them untouched. -/
theorem C10_action_preserves_result_fields (st : WidgetState) (inp : ActionIn)
    (nm : String) (b : Bool) (off : Nat) :
    ((actionThread st inp).1.resultFileName = st.resultFileName) ∧
    ((actionThread st inp).1.resultFileData = st.resultFileData) ∧
    (eventResult (actionThread st inp).2 = some (st.resultFileName, st.resultFileData)) ∧
    ((onActionRequested st nm).resultFileName = st.resultFileName) ∧
    ((onActionRequested st nm).resultFileData = st.resultFileData) ∧
    ((onRunRequested st true).resultFileName = []) ∧
    ((onRunRequested st true).resultFileData = []) ∧
    ((onTerminateRequested st b).resultFileName = st.resultFileName) ∧
    ((onTerminateRequested st b).resultFileData = st.resultFileData) ∧
    ((onPoll st off).1 = st) := by
  refine ⟨rfl, rfl, rfl, ?_, ?_, rfl, rfl, ?_, ?_, rfl⟩
  · unfold onActionRequested
    split <;> rfl
  · unfold onActionRequested
    split <;> rfl
  · unfold onTerminateRequested
    split <;> rfl
  · unfold onTerminateRequested
    split <;> rfl

end ColabPhage
